import Mathlib

/-!
# be-aware front end: a shallow embedding of the upload / report logic

The development follows the React sources under `frontend/src`:

* `app.jsx`: `handleFileChange`, `handleUpload` (with the `xhr.upload.onprogress`,
  `xhr.onload` and `xhr.onerror` callbacks), `handleDownloadPDF` and the two
  render gates of `App`;
* `components/AllergensDisplay.jsx`, `components/ResultSection.jsx`,
  `components/NutritionDisplay.jsx`.

React state is an explicit record, every handler is a function from the state
before to the state after together with the side effects it issued and the
exception that escaped it, if any.  Library calls whose code is not part of the
repository (`t` of i18next, `JSON.parse`, `fetch`) appear as parameters or as
inputs that carry their outcome.
-/

namespace BeAware

/-! ## JavaScript values -/

/-- The numbers of JavaScript.  Finite values are carried as rationals (every
finite double is one); the four special values are separate constructors. -/
inductive JsNum where
  | nan
  | posInf
  | negInf
  | negZero
  | fin (q : ℚ)
  deriving DecidableEq

/-- The values that flow through the components: what `JSON.parse` can return,
`undefined`, and the built-in members every object literal inherits from
`Object.prototype` (all of them functions, or the prototype object itself). -/
inductive JsVal where
  | undefined
  | null
  | bool (b : Bool)
  | num (n : JsNum)
  | str (s : String)
  | arr (items : List JsVal)
  | obj (fields : List (String × JsVal))
  | builtin (name : String)

/-- The exceptions the modelled code can raise. -/
inductive JsError where
  | typeError
  | syntaxError
  deriving DecidableEq

/-- Own properties of an object, in property order. -/
abbrev JsObj := List (String × JsVal)

/-- Truthiness of a number: `NaN`, `0` and `-0` are falsy. -/
def JsNum.truthy : JsNum → Bool
  | .nan => false
  | .negZero => false
  | .fin q => decide (q ≠ 0)
  | _ => true

/-- The `ToBoolean` conversion applied by `&&`, `||`, `!`, `?:` and `filter`. -/
def toBoolean : JsVal → Bool
  | .undefined => false
  | .null => false
  | .bool b => b
  | .num n => n.truthy
  | .str s => decide (s ≠ "")
  | .arr _ => true
  | .obj _ => true
  | .builtin _ => true

/-- The expression `a || b`. -/
def jsOr (a b : JsVal) : JsVal := if toBoolean a then a else b

/-- The expression `a && b`. -/
def jsAnd (a b : JsVal) : JsVal := if toBoolean a then b else a

/-- The test `a === true`. -/
def isStrictlyTrue : JsVal → Bool
  | .bool true => true
  | _ => false

/-- The test `a !== s` against a string literal `s`. -/
def strictNeStr (a : JsVal) (s : String) : Bool :=
  match a with
  | .str x => decide (x ≠ s)
  | _ => true

/-- Own-property lookup. -/
def ownProp : JsObj → String → Option JsVal
  | [], _ => none
  | (k, v) :: rest, key => if k = key then some v else ownProp rest key

/-- Names every ordinary object inherits from `Object.prototype`. -/
def objectPrototypeKeys : List String :=
  ["constructor", "__defineGetter__", "__defineSetter__", "hasOwnProperty",
   "__lookupGetter__", "__lookupSetter__", "isPrototypeOf", "propertyIsEnumerable",
   "toString", "valueOf", "__proto__", "toLocaleString"]

/-- The expression `o[key]` for an ordinary object `o`: an own property if there
is one, else the member inherited from `Object.prototype`, else `undefined`. -/
def objGet (o : JsObj) (key : String) : JsVal :=
  match ownProp o key with
  | some v => v
  | none => if key ∈ objectPrototypeKeys then .builtin key else .undefined

/-- The expression `v[key]` for any value.  Reading from `null` or `undefined`
throws a `TypeError`.  Members of arrays, strings, numbers, booleans and
functions (indices, `length`, methods) are not modelled: the program reads from
values of unknown shape only the names `data`, `detail`, `error`, `filename`,
`allergens`, `nutritional_values` and the ten allergen keys, which none of the
built-in prototypes defines. -/
def getProp (v : JsVal) (key : String) : Except JsError JsVal :=
  match v with
  | .undefined => .error .typeError
  | .null => .error .typeError
  | .obj o => .ok (objGet o key)
  | _ => .ok .undefined

/-- The expression `v?.key`, with the same reach as `getProp`. -/
def optChain (v : JsVal) (key : String) : JsVal :=
  match v with
  | .undefined => .undefined
  | .null => .undefined
  | .obj o => objGet o key
  | _ => .undefined

/-- Assignment of an own property: an existing key keeps its position, a new
key goes last. -/
def setProp : JsObj → String → JsVal → JsObj
  | [], key, v => [(key, v)]
  | (k, x) :: rest, key, v =>
    if k = key then (k, v) :: rest else (k, x) :: setProp rest key v

/-- Removal of an own property. -/
def eraseProp : JsObj → String → JsObj
  | [], _ => []
  | (k, x) :: rest, key =>
    if k = key then eraseProp rest key else (k, x) :: eraseProp rest key

/-- Pairs a list with its indices written as property names, from `i` on. -/
def indexed : Nat → List JsVal → JsObj
  | _, [] => []
  | i, v :: rest => (toString i, v) :: indexed (i + 1) rest

/-- The result of `Object.entries(v)`: own enumerable string-keyed properties.
Both call sites default a falsy argument to `{}` first, so the `TypeError` for
`null` and `undefined` cannot arise and is not modelled. -/
def objectEntries : JsVal → JsObj
  | .obj o => o
  | .arr items => indexed 0 items
  | .str s => indexed 0 (s.toList.map (fun c => JsVal.str (String.singleton c)))
  | _ => []

/-- The result of `Object.values(v)`. -/
def objectValues (v : JsVal) : List JsVal := (objectEntries v).map Prod.snd

/-- The own properties copied by the spread `{...v}`. -/
def objectSpread (v : JsVal) : JsObj := objectEntries v

/-! ## Translation -/

/-- The translation function of `useTranslation()`, in the two call shapes the
components use: `t(key)` and `t(key, defaultValue)`.  In the second shape the
key is whatever value the caller computed. -/
structure Translator where
  t : String → String
  tDefault : JsVal → String → String

/-! ## `components/AllergensDisplay.jsx` -/

/-- The constant `allergenList`: key and icon, in declared order. -/
def allergenList : List (String × String) :=
  [("gluten", "🌾"), ("egg", "🥚"), ("crustaceans", "🦐"), ("fish", "🐟"),
   ("peanut", "🥜"), ("soy", "🫘"), ("milk", "🥛"), ("tree_nuts", "🌰"),
   ("celery", "🥬"), ("mustard", "🌭")]

/-- The keys of `allergenList`. -/
def allergenKeys : List String := allergenList.map Prod.fst

/-- One `div.allergen-card`. -/
structure AllergenCard where
  key : String
  className : String
  icon : String
  name : String
  status : String
  deriving DecidableEq

/-- The part of `AllergensDisplay` below the heading. -/
inductive AllergensBody where
  | cards (cs : List AllergenCard)
  | noAllergensCard (text : String)
  deriving DecidableEq

/-- The element returned by `AllergensDisplay`. -/
structure AllergensView where
  heading : String
  body : AllergensBody
  deriving DecidableEq

/-- Whether a value is `null` or `undefined`. -/
def isNullish : JsVal → Bool
  | .undefined => true
  | .null => true
  | _ => false

/-- The expression `allergens[key]` of the component, for a prop that is neither
`null` nor `undefined`. -/
def allergenFlag (allergens : JsVal) (key : String) : JsVal :=
  match allergens with
  | .obj o => objGet o key
  | _ => .undefined

/-- The constant `detected`: the table entries whose flag is truthy. -/
def detected (allergens : JsVal) : List (String × String) :=
  allergenList.filter (fun e => toBoolean (allergenFlag allergens e.1))

/-- The card rendered for one table entry. -/
def allergenCard (tr : Translator) (allergens : JsVal) (e : String × String) : AllergenCard :=
  { key := e.1
    className := "allergen-card " ++
      (if toBoolean (allergenFlag allergens e.1) then "present" else "absent")
    icon := e.2
    name := tr.t ("allergen_" ++ e.1)
    status := if toBoolean (allergenFlag allergens e.1) then "✓" else "✗" }

/-- The component `AllergensDisplay`.  With a `null` or `undefined` prop the first
read `allergens[key]` inside `filter` throws a `TypeError`. -/
def AllergensDisplay (tr : Translator) (allergens : JsVal) : Except JsError AllergensView :=
  if isNullish allergens then .error .typeError
  else
    .ok
      { heading := "⚠️ " ++ tr.t "allergens_title"
        body :=
          if (detected allergens).length > 0 then
            .cards (allergenList.map (allergenCard tr allergens))
          else
            .noAllergensCard ("✅ " ++ tr.t "safety_note_no_allergens") }

/-! ## `components/NutritionDisplay.jsx` -/

/-- The constant `nutritionIcons`. -/
def nutritionIcons : JsObj :=
  [("energy", .str "⚡"), ("fat", .str "🥑"), ("carbohydrate", .str "🍞"),
   ("sugar", .str "🍬"), ("protein", .str "🍗"), ("sodium", .str "🧂")]

/-- The constant `nutritionKeyMap`: backend key to translation key. -/
def nutritionKeyMap : JsObj :=
  [("energy", .str "nutrition_energy"), ("fat", .str "nutrition_fat"),
   ("carbohydrate", .str "nutrition_carbohydrate"),
   ("carbohydrates", .str "nutrition_carbohydrates"),
   ("sugar", .str "nutrition_sugar"), ("sugars", .str "nutrition_sugars"),
   ("protein", .str "nutrition_protein"), ("sodium", .str "nutrition_sodium")]

/-- The constant `translationKey` of a row. -/
def translationKey (key : String) : JsVal :=
  jsOr (objGet nutritionKeyMap key) (.str ("nutrition_" ++ key))

/-- The child of `span.nutrition-value`:
`value && value !== 'Not available' ? value : t('not_available')`. -/
def nutritionValue (tr : Translator) (value : JsVal) : JsVal :=
  if toBoolean (jsAnd value (.bool (strictNeStr value "Not available"))) then value
  else .str (tr.t "not_available")

/-- One `div.nutrition-row`. -/
structure NutritionRow where
  key : String
  icon : JsVal
  label : String
  value : JsVal

/-- The element returned by `NutritionDisplay`. -/
inductive NutritionView where
  | noData (text : String)
  | table (rows : List NutritionRow)

/-- The row rendered for one entry. -/
def nutritionRow (tr : Translator) (e : String × JsVal) : NutritionRow :=
  { key := e.1
    icon := jsOr (objGet nutritionIcons e.1) (.str "🍽️")
    label := tr.tDefault (translationKey e.1) e.1
    value := nutritionValue tr e.2 }

/-- The component `NutritionDisplay`. -/
def NutritionDisplay (tr : Translator) (nutritional : JsVal) : NutritionView :=
  let entries := objectEntries (jsOr nutritional (.obj []))
  if entries.length = 0 then .noData ("📉 " ++ tr.t "no_nutrition_data")
  else .table (entries.map (nutritionRow tr))

/-! ## `components/ResultSection.jsx` -/

/-- The element returned by `ResultSection`. -/
structure ResultView where
  reportTitle : String
  allergensCardClass : String
  allergens : AllergensView
  nutritionTitle : String
  nutrition : NutritionView
  downloadLabel : String

/-- The constant `allergens`: `result?.data?.allergens || {}`. -/
def resultAllergens (result : JsVal) : JsVal :=
  let data := optChain result "data"
  jsOr (optChain data "allergens") (.obj [])

/-- The constant `hasAllergens`: `Object.values(allergens).some(a => a === true)`. -/
def hasAllergens (allergens : JsVal) : Bool :=
  (objectValues allergens).any isStrictlyTrue

/-- The component `ResultSection`.  The unguarded reads `result.data` and
`result.data.nutritional_values` throw when `result` or `result.data` is
`null` or `undefined`. -/
def ResultSection (tr : Translator) (result : JsVal) : Except JsError ResultView := do
  let allergens := resultAllergens result
  let data ← getProp result "data"
  let nutritional ← getProp data "nutritional_values"
  let allergensView ← AllergensDisplay tr allergens
  pure
    { reportTitle := tr.t "report_title"
      allergensCardClass := "result-section allergens-card " ++
        (if hasAllergens allergens then "danger" else "safe")
      allergens := allergensView
      nutritionTitle := tr.t "nutrition"
      nutrition := NutritionDisplay tr nutritional
      downloadLabel := tr.t "download_report" }

/-! ## `app.jsx`: state, effects and handlers -/

/-- A `File` picked in the file input. -/
structure JsFile where
  name : String
  type : String
  content : List Nat
  deriving DecidableEq

/-- The React state of `App` that the handlers read and write. -/
structure AppState where
  file : Option JsFile
  loading : Bool
  progress : JsNum
  result : JsVal
  error : JsVal
  language : String

/-- The state after the `useState` initialisers. -/
def AppState.initial : AppState :=
  { file := none, loading := false, progress := .fin 0, result := .null,
    error := .null, language := "en" }

/-- Side effects a handler issues, in the order it issues them. -/
inductive Effect where
  | toastError (msg : String)
  | toastSuccess (msg : String)
  | xhrSend (method url : String) (file : JsFile) (language : String)
  | scrollToResultAfter (ms : Nat)
  | fetch (method url : String) (headers : List (String × String)) (jsonBody : JsVal)
  | download (fileStem : JsVal) (suffix : String) (blob : List Nat)

/-- What running a handler leaves behind: the state (state setters called
before an exception keep their effect), the effects, and the exception that
escaped the handler, if any. -/
structure Outcome where
  state : AppState
  effects : List Effect
  thrown : Option JsError

/-- The handler `handleFileChange`; `picked` is `e.target.files[0]`, `none` when
the list is empty. -/
def handleFileChange (picked : Option JsFile) (s : AppState) : Outcome :=
  match picked with
  | some selectedFile =>
    if selectedFile.type = "application/pdf" then
      { state := { s with file := some selectedFile, error := .null, result := .null }
        effects := []
        thrown := none }
    else
      { state := { s with file := none, error := .str "Please select a valid PDF file" }
        effects := [.toastError "Invalid file type. Please select a PDF."]
        thrown := none }
  | none =>
    { state := { s with file := none, error := .str "Please select a valid PDF file" }
      effects := [.toastError "Invalid file type. Please select a PDF."]
      thrown := none }

/-- The handler `handleUpload`, up to the point where the request is in flight.
`sendThrows` says whether a statement inside the `try` block (creating, opening
or sending the request) throws. -/
def handleUpload (tr : Translator) (apiUrl : String) (sendThrows : Bool) (s : AppState) :
    Outcome :=
  match s.file with
  | none =>
    { state := { s with error := .str (tr.t "no_file_selected") }
      effects := [.toastError (tr.t "no_file_selected")]
      thrown := none }
  | some file =>
    let s1 := { s with loading := true, error := .null, result := .null, progress := .fin 0 }
    if sendThrows then
      { state := { s1 with loading := false, error := .str (tr.t "unexpected_error") }
        effects := [.toastError (tr.t "unexpected_error")]
        thrown := none }
    else
      { state := s1
        effects := [.xhrSend "POST" (apiUrl ++ "/upload") file s.language]
        thrown := none }

/-- A `ProgressEvent` of `xhr.upload`. -/
structure ProgressEvent where
  lengthComputable : Bool
  loaded : Nat
  total : Nat
  deriving DecidableEq

/-- The quotient `a / b` of two non-negative integers as a JavaScript number:
`NaN` for `0 / 0`, `Infinity` for a positive numerator over `0`.  Product and
quotient are exact here, where JavaScript rounds each to the nearest double. -/
def jsDivNat (a b : Nat) : JsNum :=
  if b = 0 then (if a = 0 then .nan else .posInf) else .fin ((a : ℚ) / (b : ℚ))

/-- The function `Math.round`: the nearest integer, ties towards `+∞`. -/
def mathRound : JsNum → JsNum
  | .fin q => if -1 / 2 ≤ q ∧ q < 0 then .negZero else .fin (⌊q + 1 / 2⌋ : ℤ)
  | n => n

/-- The callback `xhr.upload.onprogress`. -/
def onprogress (e : ProgressEvent) (s : AppState) : AppState :=
  if e.lengthComputable then
    { s with progress := mathRound (jsDivNat (e.loaded * 100) e.total) }
  else s

/-- A completed response: the status and the outcome of
`JSON.parse(xhr.responseText)`, `none` when the text is not valid JSON and
`JSON.parse` throws a `SyntaxError`. -/
structure XhrResponse where
  status : Nat
  json : Option JsVal

/-- The callback `xhr.onload`. -/
def onload (tr : Translator) (r : XhrResponse) (s : AppState) : Outcome :=
  let s1 := { s with loading := false }
  if 200 ≤ r.status ∧ r.status < 300 then
    match r.json with
    | none => { state := s1, effects := [], thrown := some .syntaxError }
    | some data =>
      { state := { s1 with result := data }
        effects := [.toastSuccess (tr.t "analysis_complete"), .scrollToResultAfter 400]
        thrown := none }
  else
    match r.json with
    | none => { state := s1, effects := [], thrown := some .syntaxError }
    | some errData =>
      match getProp errData "detail" with
      | .error err => { state := s1, effects := [], thrown := some err }
      | .ok detail =>
        { state := { s1 with error := jsOr detail (.str (tr.t "analysis_failed")) }
          effects := [.toastError (tr.t "analysis_failed")]
          thrown := none }

/-- The callback `xhr.onerror`. -/
def onerror (tr : Translator) (s : AppState) : Outcome :=
  { state := { s with loading := false, error := .str (tr.t "network_error") }
    effects := [.toastError (tr.t "network_error")]
    thrown := none }

/-- How the `fetch` of the export ends: the promise rejects, or it resolves to a
response with its `ok` flag and the outcome of `response.blob()` (`none` when
reading the body rejects). -/
inductive FetchOutcome where
  | rejected
  | response (ok : Bool) (blob : Option (List Nat))

/-- The handler `handleDownloadPDF`. -/
def handleDownloadPDF (tr : Translator) (apiUrl : String) (net : FetchOutcome)
    (s : AppState) : Outcome :=
  if !toBoolean (optChain s.result "data") then
    { state := s, effects := [], thrown := none }
  else
    let body := JsVal.obj
      (setProp (objectSpread (optChain s.result "data")) "language" (.str s.language))
    let request := Effect.fetch "POST" (apiUrl ++ "/generate-pdf")
      [("Content-Type", "application/json")] body
    match net with
    | .rejected =>
      { state := s, effects := [request, .toastError (tr.t "pdf_failed")], thrown := none }
    | .response false _ =>
      { state := s, effects := [request, .toastError (tr.t "pdf_failed")], thrown := none }
    | .response true none =>
      { state := s, effects := [request, .toastError (tr.t "pdf_failed")], thrown := none }
    | .response true (some blob) =>
      { state := s
        effects := [request, .download (optChain s.result "filename") "_aware_report.pdf" blob,
          .toastSuccess (tr.t "pdf_downloaded")]
        thrown := none }

/-- The success body of `POST /upload`, `{ filename, data: { allergens,
nutritional_values } }`. -/
def uploadResult (filename : String) (allergens nutritional : JsVal) : JsVal :=
  .obj [("filename", .str filename),
        ("data", .obj [("allergens", allergens), ("nutritional_values", nutritional)])]

/-- The gate `{error && ...}` of `App`: whether the inline error block shows. -/
def showsError (s : AppState) : Bool := toBoolean s.error

/-- The gate `{result && result.data && !result.data.error && ...}` of `App`:
whether the result section shows.  Each read is guarded by the truthiness of
the operand before it, so none can throw. -/
def showsResult (s : AppState) : Bool :=
  toBoolean s.result && toBoolean (optChain s.result "data") &&
    !toBoolean (optChain (optChain s.result "data") "error")

/-- The state after a run of progress events. -/
def runProgress (s : AppState) : List ProgressEvent → AppState
  | [] => s
  | e :: rest => runProgress (onprogress e s) rest

/-- The progress value held by the state after each event of a run. -/
def progressTrace (s : AppState) : List ProgressEvent → List JsNum
  | [] => []
  | e :: rest => (onprogress e s).progress :: progressTrace (onprogress e s) rest

/-- The state of an upload in flight: `handleUpload` went through with the
request sent, and the progress events `ticks` have been handled since. -/
def uploadInFlight (tr : Translator) (apiUrl : String) (s0 : AppState)
    (ticks : List ProgressEvent) : AppState :=
  runProgress (handleUpload tr apiUrl false s0).state ticks

/-- Whether an effect is a network request. -/
def Effect.isRequest : Effect → Bool
  | .xhrSend _ _ _ _ => true
  | .fetch _ _ _ _ => true
  | _ => false

/-- A picked file `report.pdf` of type `application/pdf`. -/
def reportPdf : JsFile := { name := "report.pdf", type := "application/pdf", content := [] }

/-- The default of the constant `API_URL`. -/
def defaultApiUrl : String := "http://127.0.0.1:8000"

/-- A translator that returns the key itself, or the default when one is given:
what i18next does for a key without a translation. -/
def keyTranslator : Translator :=
  { t := fun key => key, tDefault := fun _ defaultValue => defaultValue }

/-! ## Lemmas on objects -/

theorem ownProp_mem {m : JsObj} {k : String} {v : JsVal} (h : ownProp m k = some v) :
    (k, v) ∈ m := by
  induction m with
  | nil => simp [ownProp] at h
  | cons p rest ih =>
    obtain ⟨k', v'⟩ := p
    by_cases hk : k' = k
    · simp [ownProp, hk] at h
      simp [hk, h]
    · simp [ownProp, hk] at h
      exact List.mem_cons_of_mem _ (ih h)

theorem ownProp_eq_none {m : JsObj} {k : String} (h : ∀ p ∈ m, p.1 ≠ k) :
    ownProp m k = none := by
  induction m with
  | nil => rfl
  | cons p rest ih =>
    obtain ⟨k', v'⟩ := p
    have hk : k' ≠ k := h (k', v') (List.mem_cons_self _ _)
    simp only [ownProp, hk, if_false]
    exact ih (fun q hq => h q (List.mem_cons_of_mem _ hq))

theorem allergenKeys_not_inherited {k : String} (hk : k ∈ allergenKeys) :
    k ∉ objectPrototypeKeys := by
  simp only [allergenKeys, allergenList, List.map, List.mem_cons, List.mem_singleton,
    List.mem_nil_iff, or_false] at hk
  rcases hk with h | h | h | h | h | h | h | h | h | h <;> subst h <;> decide

/-- For a mapping with boolean values, the flag read for a table key is truthy
exactly when the mapping holds `true` under that key. -/
theorem allergenFlag_truthy_iff {m : JsObj} (hbool : ∀ p ∈ m, ∃ b, p.2 = JsVal.bool b)
    {k : String} (hk : k ∈ allergenKeys) :
    toBoolean (allergenFlag (.obj m) k) = true ↔ ownProp m k = some (.bool true) := by
  have hproto := allergenKeys_not_inherited hk
  cases hown : ownProp m k with
  | none => simp [allergenFlag, objGet, hown, hproto, toBoolean]
  | some v =>
    obtain ⟨b, hb⟩ := hbool (k, v) (ownProp_mem hown)
    simp only at hb
    subst hb
    cases b <;> simp [allergenFlag, objGet, hown, toBoolean]

theorem detected_pos_iff (a : JsVal) :
    0 < (detected a).length ↔
      ∃ k ∈ allergenKeys, toBoolean (allergenFlag a k) = true := by
  rw [List.length_pos, detected]
  constructor
  · intro h
    obtain ⟨e, he⟩ := List.exists_mem_of_ne_nil _ h
    rw [List.mem_filter] at he
    exact ⟨e.1, List.mem_map_of_mem _ he.1, he.2⟩
  · rintro ⟨k, hk, hflag⟩
    obtain ⟨e, he, rfl⟩ := List.mem_map.mp hk
    exact List.ne_nil_of_mem (List.mem_filter.mpr ⟨he, hflag⟩)

theorem ownProp_of_mem {m : JsObj} (hnd : (m.map Prod.fst).Nodup) {k : String} {v : JsVal}
    (h : (k, v) ∈ m) : ownProp m k = some v := by
  induction m with
  | nil => simp at h
  | cons p rest ih =>
    obtain ⟨k', v'⟩ := p
    rw [List.map_cons, List.nodup_cons] at hnd
    rcases List.mem_cons.mp h with heq | hrest
    · obtain ⟨rfl, rfl⟩ := Prod.mk.inj heq
      simp [ownProp]
    · have hne : k' ≠ k := by
        rintro rfl
        exact hnd.1 (List.mem_map.mpr ⟨(k', v), hrest, rfl⟩)
      simp only [ownProp, hne, if_false]
      exact ih hnd.2 hrest

theorem ownProp_setProp_ne (m : JsObj) {k key : String} (v : JsVal) (h : k ≠ key) :
    ownProp (setProp m k v) key = ownProp m key := by
  induction m with
  | nil => simp [setProp, ownProp, h]
  | cons p rest ih =>
    obtain ⟨k', v'⟩ := p
    by_cases hk : k' = k
    · subst hk
      simp [setProp, ownProp, h]
    · by_cases hkey : k' = key
      · subst hkey
        simp [setProp, ownProp, hk]
      · simp [setProp, ownProp, hk, hkey, ih]

theorem ownProp_eraseProp_ne (m : JsObj) {k key : String} (h : k ≠ key) :
    ownProp (eraseProp m k) key = ownProp m key := by
  induction m with
  | nil => rfl
  | cons p rest ih =>
    obtain ⟨k', v'⟩ := p
    by_cases hk : k' = k
    · subst hk
      simp [eraseProp, ownProp, h, ih]
    · by_cases hkey : k' = key
      · subst hkey
        simp [eraseProp, ownProp, hk]
      · simp [eraseProp, ownProp, hk, hkey, ih]

theorem eraseProp_of_not_key {m : JsObj} {k : String} (h : k ∉ m.map Prod.fst) :
    eraseProp m k = m := by
  induction m with
  | nil => rfl
  | cons p rest ih =>
    obtain ⟨k', v'⟩ := p
    rw [List.map_cons, List.mem_cons, not_or] at h
    have hk : k' ≠ k := fun e => h.1 e.symm
    simp [eraseProp, hk, ih h.2]

/-- On an object with distinct keys, assigning `k` adds the new value to the
values of the object without `k`, as far as `some` is concerned. -/
theorem any_values_setProp {m : JsObj} (hnd : (m.map Prod.fst).Nodup) (k : String)
    (v : JsVal) (f : JsVal → Bool) :
    ((setProp m k v).map Prod.snd).any f = (f v || ((eraseProp m k).map Prod.snd).any f) := by
  induction m with
  | nil => simp [setProp, eraseProp]
  | cons p rest ih =>
    obtain ⟨k', v'⟩ := p
    rw [List.map_cons, List.nodup_cons] at hnd
    by_cases hk : k' = k
    · subst hk
      simp [setProp, eraseProp, eraseProp_of_not_key hnd.1]
    · simp only [setProp, eraseProp, hk, if_false, List.map_cons, List.any_cons, ih hnd.2]
      cases f v <;> cases f v' <;> simp

/-- The view of `AllergensDisplay` depends on an object prop only through the
flags read for the ten table keys. -/
theorem AllergensDisplay_congr (tr : Translator) {a b : JsObj}
    (h : ∀ k ∈ allergenKeys, ownProp a k = ownProp b k) :
    AllergensDisplay tr (.obj a) = AllergensDisplay tr (.obj b) := by
  have hflag : ∀ e ∈ allergenList,
      allergenFlag (.obj a) e.1 = allergenFlag (.obj b) e.1 := by
    intro e he
    simp only [allergenFlag, objGet, h e.1 (List.mem_map_of_mem Prod.fst he)]
  have hdet : detected (.obj a) = detected (.obj b) := by
    simp only [detected]
    exact List.filter_congr (fun e he => by rw [hflag e he])
  have hcards : allergenList.map (allergenCard tr (.obj a)) =
      allergenList.map (allergenCard tr (.obj b)) :=
    List.map_congr_left (fun e he => by simp only [allergenCard, hflag e he])
  simp only [AllergensDisplay, isNullish, hdet, hcards]

/-! ## Lemmas on the upload lifecycle -/

/-- The percentage stored for a tick with a positive total. -/
theorem mathRound_jsDivNat {a b : Nat} (hb : 0 < b) :
    mathRound (jsDivNat a b) = .fin ((⌊(a : ℚ) / (b : ℚ) + 1 / 2⌋ : ℤ) : ℚ) := by
  have hb0 : b ≠ 0 := Nat.pos_iff_ne_zero.mp hb
  have hq : (0 : ℚ) ≤ (a : ℚ) / (b : ℚ) := by positivity
  have hneg : ¬ (-1 / 2 ≤ (a : ℚ) / (b : ℚ) ∧ (a : ℚ) / (b : ℚ) < 0) :=
    fun h => absurd h.2 (not_lt.mpr hq)
  simp only [jsDivNat, hb0, if_false, mathRound, hneg]

theorem percent_nonneg (a b : Nat) : 0 ≤ ⌊(a : ℚ) / (b : ℚ) + 1 / 2⌋ := by
  apply Int.floor_nonneg.mpr
  positivity

theorem percent_le_hundred {loaded total : Nat} (ht : 0 < total) (h : loaded ≤ total) :
    ⌊((loaded * 100 : Nat) : ℚ) / (total : ℚ) + 1 / 2⌋ ≤ 100 := by
  have htq : (0 : ℚ) < (total : ℚ) := by exact_mod_cast ht
  have hle : ((loaded * 100 : Nat) : ℚ) / (total : ℚ) ≤ 100 := by
    rw [div_le_iff₀ htq]
    have : ((loaded * 100 : Nat) : ℚ) ≤ ((total * 100 : Nat) : ℚ) := by
      exact_mod_cast Nat.mul_le_mul_right 100 h
    calc ((loaded * 100 : Nat) : ℚ) ≤ ((total * 100 : Nat) : ℚ) := this
      _ = 100 * (total : ℚ) := by push_cast; ring
  have hcast : ((100 + 1 : ℤ) : ℚ) = 101 := by norm_num
  have hlt : ((loaded * 100 : Nat) : ℚ) / (total : ℚ) + 1 / 2 < ((100 + 1 : ℤ) : ℚ) := by
    rw [hcast]
    linarith
  exact Int.lt_add_one_iff.mp (Int.floor_lt.mpr hlt)

theorem percent_mono {a b total : Nat} (h : a ≤ b) :
    ⌊((a * 100 : Nat) : ℚ) / (total : ℚ) + 1 / 2⌋ ≤
      ⌊((b * 100 : Nat) : ℚ) / (total : ℚ) + 1 / 2⌋ := by
  apply Int.floor_mono
  have hab : ((a * 100 : Nat) : ℚ) ≤ ((b * 100 : Nat) : ℚ) := by
    exact_mod_cast Nat.mul_le_mul_right 100 h
  have htq : (0 : ℚ) ≤ (total : ℚ) := by positivity
  have := div_le_div_of_nonneg_right hab htq
  linarith

theorem onprogress_fields (e : ProgressEvent) (s : AppState) :
    (onprogress e s).file = s.file ∧ (onprogress e s).loading = s.loading ∧
    (onprogress e s).result = s.result ∧ (onprogress e s).error = s.error ∧
    (onprogress e s).language = s.language := by
  cases hlc : e.lengthComputable <;> simp [onprogress, hlc]

/-- Progress events write the `progress` field only. -/
theorem runProgress_fields (s : AppState) (ticks : List ProgressEvent) :
    (runProgress s ticks).file = s.file ∧ (runProgress s ticks).loading = s.loading ∧
    (runProgress s ticks).result = s.result ∧ (runProgress s ticks).error = s.error ∧
    (runProgress s ticks).language = s.language := by
  induction ticks generalizing s with
  | nil => simp [runProgress]
  | cons e rest ih =>
    obtain ⟨h1, h2, h3, h4, h5⟩ := ih (onprogress e s)
    obtain ⟨g1, g2, g3, g4, g5⟩ := onprogress_fields e s
    simp only [runProgress]
    exact ⟨h1.trans g1, h2.trans g2, h3.trans g3, h4.trans g4, h5.trans g5⟩

/-- While an upload that was started with a file is in flight, the state is
loading, with no error and no result. -/
theorem uploadInFlight_fields (tr : Translator) (apiUrl : String) (s0 : AppState)
    (file : JsFile) (hfile : s0.file = some file) (ticks : List ProgressEvent) :
    (uploadInFlight tr apiUrl s0 ticks).loading = true ∧
    (uploadInFlight tr apiUrl s0 ticks).result = .null ∧
    (uploadInFlight tr apiUrl s0 ticks).error = .null := by
  obtain ⟨_, h2, h3, h4, _⟩ := runProgress_fields (handleUpload tr apiUrl false s0).state ticks
  rw [uploadInFlight, h2, h3, h4]
  simp [handleUpload, hfile]

/-- The trace of a run of length-computable ticks with a positive total. -/
theorem progressTrace_eq (s : AppState) (total : Nat) (htotal : 0 < total)
    (ticks : List ProgressEvent)
    (hticks : ∀ e ∈ ticks, e.lengthComputable = true ∧ e.total = total) :
    progressTrace s ticks = (ticks.map (fun e =>
      ⌊((e.loaded * 100 : Nat) : ℚ) / (total : ℚ) + 1 / 2⌋)).map
        (fun p : ℤ => JsNum.fin (p : ℚ)) := by
  induction ticks generalizing s with
  | nil => rfl
  | cons e rest ih =>
    obtain ⟨hlc, htot⟩ := hticks e (List.mem_cons_self _ _)
    have hrest := ih (onprogress e s) (fun x hx => hticks x (List.mem_cons_of_mem _ hx))
    simp only [progressTrace, List.map_cons, hrest]
    congr 1
    simp only [onprogress, hlc, if_true, htot, mathRound_jsDivNat htotal]

/-! ## File selection -/

/-- C1: after `handleFileChange`, from any prior state: when a file was picked
and its declared type is exactly `application/pdf`, the stored file is that
file and both the error and the result are `null`; in every other case (no file
picked, or any other declared type) the stored file is `null` and the inline
error is a non-null message. -/
theorem handleFileChange_pdf_or_error (picked : Option JsFile) (s : AppState) :
    (∀ f, picked = some f → f.type = "application/pdf" →
      (handleFileChange picked s).state.file = some f ∧
      (handleFileChange picked s).state.error = .null ∧
      (handleFileChange picked s).state.result = .null) ∧
    ((∀ f, picked = some f → f.type ≠ "application/pdf") →
      (handleFileChange picked s).state.file = none ∧
      (handleFileChange picked s).state.error = .str "Please select a valid PDF file" ∧
      (handleFileChange picked s).state.error ≠ .null) := by
  refine ⟨?_, ?_⟩
  · intro f hf ht
    subst hf
    simp [handleFileChange, ht]
  · intro h
    cases picked with
    | none => simp [handleFileChange]
    | some f =>
      have ht : f.type ≠ "application/pdf" := h f rfl
      simp [handleFileChange, ht]

/-- C1 at `report.pdf` picked after a failed selection: the file is stored and
the earlier error and result are cleared; picking a `text/plain` file stores
nothing and sets the error. -/
theorem handleFileChange_pdf_or_error_witness :
    ((handleFileChange (some reportPdf)
        (handleFileChange none AppState.initial).state).state.file = some reportPdf ∧
      (handleFileChange (some reportPdf)
        (handleFileChange none AppState.initial).state).state.error = .null ∧
      (handleFileChange (some reportPdf)
        (handleFileChange none AppState.initial).state).state.result = .null) ∧
    ((handleFileChange (some ⟨"notes.txt", "text/plain", []⟩)
        { AppState.initial with file := some reportPdf }).state.file = none ∧
      (handleFileChange (some ⟨"notes.txt", "text/plain", []⟩)
        { AppState.initial with file := some reportPdf }).state.error =
          .str "Please select a valid PDF file" ∧
      (handleFileChange (some ⟨"notes.txt", "text/plain", []⟩)
        { AppState.initial with file := some reportPdf }).state.error ≠ .null) :=
  ⟨(handleFileChange_pdf_or_error (some reportPdf)
      (handleFileChange none AppState.initial).state).1 reportPdf rfl rfl,
    (handleFileChange_pdf_or_error (some ⟨"notes.txt", "text/plain", []⟩)
      { AppState.initial with file := some reportPdf }).2
      (fun f hf => by
        cases hf
        decide)⟩

/-! ## Allergen rendering -/

/-- C2: for an allergen mapping over the ten table keys with boolean values,
`AllergensDisplay` renders the single safe-state card and no allergen card when
no key is flagged `true`; when some key is flagged `true` it renders exactly
ten cards, one per table entry in declared order, each tagged `present` when
its flag is `true` and `absent` otherwise. -/
theorem AllergensDisplay_boolean_mapping (tr : Translator) (m : JsObj)
    (hwf : ∀ p ∈ m, p.1 ∈ allergenKeys ∧ ∃ b, p.2 = JsVal.bool b) :
    ((∀ k ∈ allergenKeys, ownProp m k ≠ some (.bool true)) →
      AllergensDisplay tr (.obj m) = .ok
        { heading := "⚠️ " ++ tr.t "allergens_title"
          body := .noAllergensCard ("✅ " ++ tr.t "safety_note_no_allergens") }) ∧
    ((∃ k ∈ allergenKeys, ownProp m k = some (.bool true)) →
      ∃ cs, AllergensDisplay tr (.obj m) = .ok
          { heading := "⚠️ " ++ tr.t "allergens_title", body := .cards cs } ∧
        cs.length = 10 ∧
        cs.map AllergenCard.key =
          ["gluten", "egg", "crustaceans", "fish", "peanut", "soy", "milk", "tree_nuts",
           "celery", "mustard"] ∧
        ∀ c ∈ cs,
          (ownProp m c.key = some (.bool true) → c.className = "allergen-card present") ∧
          (ownProp m c.key ≠ some (.bool true) → c.className = "allergen-card absent")) := by
  have hbool : ∀ p ∈ m, ∃ b, p.2 = JsVal.bool b := fun p hp => (hwf p hp).2
  refine ⟨?_, ?_⟩
  · intro hnone
    have hlen : ¬ 0 < (detected (.obj m)).length := by
      rw [detected_pos_iff]
      rintro ⟨k, hk, hflag⟩
      exact hnone k hk ((allergenFlag_truthy_iff hbool hk).mp hflag)
    simp [AllergensDisplay, isNullish, hlen]
  · rintro ⟨k, hk, htrue⟩
    have hlen : 0 < (detected (.obj m)).length :=
      (detected_pos_iff _).mpr ⟨k, hk, (allergenFlag_truthy_iff hbool hk).mpr htrue⟩
    refine ⟨allergenList.map (allergenCard tr (.obj m)), ?_, ?_, ?_, ?_⟩
    · simp [AllergensDisplay, isNullish, hlen]
    · simp [allergenList]
    · simp [allergenList, allergenCard]
    · intro c hc
      obtain ⟨e, he, rfl⟩ := List.mem_map.mp hc
      have hek : e.1 ∈ allergenKeys := List.mem_map_of_mem _ he
      have hiff := allergenFlag_truthy_iff hbool hek
      constructor
      · intro h
        simp only [allergenCard, hiff.mpr h, if_true]
        rfl
      · intro h
        have hf : toBoolean (allergenFlag (.obj m) e.1) = false := by
          cases hb : toBoolean (allergenFlag (.obj m) e.1) with
          | false => rfl
          | true => exact absurd (hiff.mp hb) h
        simp only [allergenCard, hf]
        rfl

/-- C2 at the mapping `{milk: true}`: ten cards, the one for milk tagged
`present` and the other nine `absent`. -/
theorem AllergensDisplay_boolean_mapping_witness :
    (∀ p ∈ [("milk", JsVal.bool true)], p.1 ∈ allergenKeys ∧ ∃ b, p.2 = JsVal.bool b) ∧
    (∃ k ∈ allergenKeys, ownProp [("milk", JsVal.bool true)] k = some (.bool true)) ∧
    ∃ cs, AllergensDisplay keyTranslator (.obj [("milk", .bool true)]) = .ok
        { heading := "⚠️ " ++ keyTranslator.t "allergens_title", body := .cards cs } ∧
      cs.length = 10 ∧
      cs.map AllergenCard.key =
        ["gluten", "egg", "crustaceans", "fish", "peanut", "soy", "milk", "tree_nuts",
         "celery", "mustard"] ∧
      ∀ c ∈ cs,
        (ownProp [("milk", JsVal.bool true)] c.key = some (.bool true) →
          c.className = "allergen-card present") ∧
        (ownProp [("milk", JsVal.bool true)] c.key ≠ some (.bool true) →
          c.className = "allergen-card absent") :=
  have hwf : ∀ p ∈ [("milk", JsVal.bool true)],
      p.1 ∈ allergenKeys ∧ ∃ b, p.2 = JsVal.bool b := by
    intro p hp
    rw [List.mem_singleton] at hp
    subst hp
    exact ⟨by decide, true, rfl⟩
  have hex : ∃ k ∈ allergenKeys, ownProp [("milk", JsVal.bool true)] k = some (.bool true) :=
    ⟨"milk", by decide, by simp [ownProp]⟩
  ⟨hwf, hex, (AllergensDisplay_boolean_mapping keyTranslator _ hwf).2 hex⟩

/-- C3 at the mapping `{sesame: true}`: `AllergensDisplay` ignores the unknown
key and shows the safe-state card, but `hasAllergens` of `ResultSection` counts
it, so the container around that card is `danger`; without the key the
container is `safe`. -/
theorem unknown_true_key_flips_container_state :
    "sesame" ∉ allergenKeys ∧
    (ResultSection keyTranslator
        (uploadResult "report" (.obj (setProp [] "sesame" (.bool true))) (.obj []))).map
      (fun view => view.allergens.body) =
        .ok (.noAllergensCard "✅ safety_note_no_allergens") ∧
    (ResultSection keyTranslator
        (uploadResult "report" (.obj (setProp [] "sesame" (.bool true))) (.obj []))).map
      ResultView.allergensCardClass = .ok "result-section allergens-card danger" ∧
    (ResultSection keyTranslator
        (uploadResult "report" (.obj (eraseProp [] "sesame")) (.obj []))).map
      ResultView.allergensCardClass = .ok "result-section allergens-card safe" ∧
    (ResultSection keyTranslator
        (uploadResult "report" (.obj (setProp [] "sesame" (.bool true))) (.obj []))).map
      ResultView.allergensCardClass ≠
    (ResultSection keyTranslator
        (uploadResult "report" (.obj (eraseProp [] "sesame")) (.obj []))).map
      ResultView.allergensCardClass := by
  refine ⟨by decide, rfl, rfl, rfl, ?_⟩
  intro h
  have h2 : (Except.ok "result-section allergens-card danger" : Except JsError String) =
      .ok "result-section allergens-card safe" := h
  injection h2 with h3
  exact absurd h3 (by decide)

/-- The allergen prop that `ResultSection` derives from an upload result whose
`allergens` field is an object is that object. -/
theorem resultAllergens_uploadResult (f : String) (m : JsObj) (n : JsVal) :
    resultAllergens (uploadResult f (.obj m) n) = .obj m := by
  simp [resultAllergens, uploadResult, optChain, objGet, ownProp, jsOr, toBoolean]

/-- On an upload result whose `allergens` field is an object, `ResultSection`
returns a view built from that object. -/
theorem ResultSection_uploadResult (tr : Translator) (f : String) (m : JsObj) (n : JsVal) :
    ∃ av, AllergensDisplay tr (.obj m) = .ok av ∧
      ResultSection tr (uploadResult f (.obj m) n) = .ok
        { reportTitle := tr.t "report_title"
          allergensCardClass := "result-section allergens-card " ++
            (if hasAllergens (.obj m) then "danger" else "safe")
          allergens := av
          nutritionTitle := tr.t "nutrition"
          nutrition := NutritionDisplay tr n
          downloadLabel := tr.t "download_report" } := by
  refine ⟨_, by simp only [AllergensDisplay, isNullish]; rfl, ?_⟩
  simp only [ResultSection, resultAllergens_uploadResult]
  simp [uploadResult, getProp, objGet, ownProp, AllergensDisplay, isNullish, bind, Except.bind,
    pure, Except.pure]

theorem isStrictlyTrue_iff (v : JsVal) : isStrictlyTrue v = true ↔ v = .bool true := by
  cases v with
  | bool b => cases b <;> simp [isStrictlyTrue]
  | _ => simp [isStrictlyTrue]

/-- What the components do agree on for a key `k` outside the ten-entry table:
the allergen view (list-or-message decision and every card) rendered for `m`
with `k` set to `v` is the one rendered for `m` without `k`, and so is the
container state whenever `v` is not strictly `true`. -/
theorem unknown_key_leaves_allergen_view (tr : Translator) (f : String) (m : JsObj)
    (k : String) (v n : JsVal) (hnd : (m.map Prod.fst).Nodup) (hk : k ∉ allergenKeys) :
    ∃ withKey withoutKey,
      ResultSection tr (uploadResult f (.obj (setProp m k v)) n) = .ok withKey ∧
      ResultSection tr (uploadResult f (.obj (eraseProp m k)) n) = .ok withoutKey ∧
      withKey.allergens = withoutKey.allergens ∧
      withKey.nutrition = withoutKey.nutrition ∧
      (v ≠ .bool true → withKey.allergensCardClass = withoutKey.allergensCardClass) := by
  obtain ⟨av1, hav1, h1⟩ := ResultSection_uploadResult tr f (setProp m k v) n
  obtain ⟨av2, hav2, h2⟩ := ResultSection_uploadResult tr f (eraseProp m k) n
  have hcongr : AllergensDisplay tr (.obj (setProp m k v)) =
      AllergensDisplay tr (.obj (eraseProp m k)) := by
    apply AllergensDisplay_congr
    intro key hkey
    have hne : k ≠ key := fun e => hk (e ▸ hkey)
    rw [ownProp_setProp_ne m v hne, ownProp_eraseProp_ne m hne]
  have hav : av1 = av2 := by
    rw [hav1] at hcongr
    rw [hav2] at hcongr
    exact Except.ok.inj hcongr
  have hany := any_values_setProp hnd k v isStrictlyTrue
  refine ⟨_, _, h1, h2, hav, rfl, ?_⟩
  intro hv
  have hfalse : isStrictlyTrue v = false := by
    cases hb : isStrictlyTrue v with
    | false => rfl
    | true => exact absurd ((isStrictlyTrue_iff v).mp hb) hv
  simp only [hasAllergens, objectValues, objectEntries, hany, hfalse, Bool.false_or]

/-- C10: on a well-formed payload (distinct keys, all among the ten table keys,
all values booleans) the flag `hasAllergens` of `ResultSection` equals the list
decision of `AllergensDisplay`, so the container is `danger` exactly when the
ten-card list is shown and `safe` exactly when the safe-state message is. -/
theorem container_state_matches_list_decision (tr : Translator) (f : String) (m : JsObj)
    (n : JsVal) (hnd : (m.map Prod.fst).Nodup)
    (hwf : ∀ p ∈ m, p.1 ∈ allergenKeys ∧ ∃ b, p.2 = JsVal.bool b) :
    hasAllergens (.obj m) = decide (0 < (detected (.obj m)).length) ∧
    ∃ view, ResultSection tr (uploadResult f (.obj m) n) = .ok view ∧
      (view.allergensCardClass = "result-section allergens-card danger" ↔
        view.allergens.body = .cards (allergenList.map (allergenCard tr (.obj m)))) ∧
      (view.allergensCardClass = "result-section allergens-card safe" ↔
        view.allergens.body = .noAllergensCard ("✅ " ++ tr.t "safety_note_no_allergens")) := by
  have hbool : ∀ p ∈ m, ∃ b, p.2 = JsVal.bool b := fun p hp => (hwf p hp).2
  have hagree : hasAllergens (.obj m) = decide (0 < (detected (.obj m)).length) := by
    rw [Bool.eq_iff_iff, decide_eq_true_iff, detected_pos_iff]
    simp only [hasAllergens, objectValues, objectEntries, List.any_eq_true, List.mem_map]
    constructor
    · rintro ⟨v, ⟨p, hp, rfl⟩, hv⟩
      have hpv : p.2 = .bool true := (isStrictlyTrue_iff _).mp hv
      have hmem : (p.1, JsVal.bool true) ∈ m := by
        rw [← hpv]
        exact hp
      exact ⟨p.1, (hwf p hp).1,
        (allergenFlag_truthy_iff hbool (hwf p hp).1).mpr (ownProp_of_mem hnd hmem)⟩
    · rintro ⟨k, hk, hflag⟩
      have hown := (allergenFlag_truthy_iff hbool hk).mp hflag
      exact ⟨.bool true, ⟨(k, .bool true), ownProp_mem hown, rfl⟩, rfl⟩
  refine ⟨hagree, ?_⟩
  obtain ⟨av, hav, hview⟩ := ResultSection_uploadResult tr f m n
  refine ⟨_, hview, ?_⟩
  simp only [AllergensDisplay, isNullish] at hav
  have hav2 := Except.ok.inj hav
  subst hav2
  cases hh : hasAllergens (.obj m) with
  | true =>
    have hpos : 0 < (detected (.obj m)).length := by
      rw [hh] at hagree
      exact of_decide_eq_true hagree.symm
    simp only [hpos, gt_iff_lt, if_true]
    exact ⟨⟨fun _ => trivial, fun _ => rfl⟩, ⟨fun h => absurd h (by decide), fun h => by cases h⟩⟩
  | false =>
    have hpos : ¬ 0 < (detected (.obj m)).length := by
      rw [hh] at hagree
      exact of_decide_eq_false hagree.symm
    simp only [hpos, gt_iff_lt, if_false]
    exact ⟨⟨fun h => absurd h (by decide), fun h => by cases h⟩, ⟨fun _ => trivial, fun _ => rfl⟩⟩

/-- C10 at the payload `{milk: true, egg: false}`. -/
theorem container_state_matches_list_decision_witness :
    ([("milk", JsVal.bool true), ("egg", JsVal.bool false)].map Prod.fst).Nodup ∧
    hasAllergens (.obj [("milk", .bool true), ("egg", .bool false)]) =
      decide (0 < (detected (.obj [("milk", .bool true), ("egg", .bool false)])).length) ∧
    ∃ view, ResultSection keyTranslator (uploadResult "report"
        (.obj [("milk", .bool true), ("egg", .bool false)]) (.obj [])) = .ok view ∧
      (view.allergensCardClass = "result-section allergens-card danger" ↔
        view.allergens.body = .cards (allergenList.map
          (allergenCard keyTranslator (.obj [("milk", .bool true), ("egg", .bool false)])))) ∧
      (view.allergensCardClass = "result-section allergens-card safe" ↔
        view.allergens.body =
          .noAllergensCard ("✅ " ++ keyTranslator.t "safety_note_no_allergens")) :=
  ⟨by decide,
    container_state_matches_list_decision keyTranslator "report"
      [("milk", .bool true), ("egg", .bool false)] (.obj []) (by decide)
      (by
        intro p hp
        simp only [List.mem_cons, List.mem_singleton, List.mem_nil_iff, or_false] at hp
        rcases hp with rfl | rfl
        · exact ⟨by decide, true, rfl⟩
        · exact ⟨by decide, false, rfl⟩)⟩

/-! ## Nutrition rendering -/

/-- C4, as stated, fails: the empty string and the number `0` are present values
other than the placeholder, yet the row shows the `not available` label. -/
theorem nutritionValue_falsy_value_replaced :
    nutritionValue keyTranslator (.str "") = .str "not_available" ∧
    nutritionValue keyTranslator (.str "") ≠ .str "" ∧
    nutritionValue keyTranslator (.num (.fin 0)) = .str "not_available" ∧
    nutritionValue keyTranslator (.num (.fin 0)) ≠ .num (.fin 0) := by
  have h1 : nutritionValue keyTranslator (.str "") = .str "not_available" := rfl
  have h2 : nutritionValue keyTranslator (.num (.fin 0)) = .str "not_available" := by
    simp [nutritionValue, jsAnd, toBoolean, JsNum.truthy, keyTranslator]
  refine ⟨h1, ?_, h2, ?_⟩
  · rw [h1]
    intro h
    injection h with h
    exact absurd h (by decide)
  · rw [h2]
    intro h
    cases h

/-- C4, amended: a non-empty string other than `Not available` and a number other
than `0`, `-0` and `NaN` render verbatim; a missing value (`null` or
`undefined`), the empty string and the literal `Not available` render the
localized `not available` label. -/
theorem nutritionValue_verbatim_or_label (tr : Translator) :
    (∀ s : String, s ≠ "" → s ≠ "Not available" →
      nutritionValue tr (.str s) = .str s) ∧
    (∀ n : JsNum, n ≠ .nan → n ≠ .negZero → n ≠ .fin 0 →
      nutritionValue tr (.num n) = .num n) ∧
    nutritionValue tr .null = .str (tr.t "not_available") ∧
    nutritionValue tr .undefined = .str (tr.t "not_available") ∧
    nutritionValue tr (.str "") = .str (tr.t "not_available") ∧
    nutritionValue tr (.str "Not available") = .str (tr.t "not_available") := by
  refine ⟨?_, ?_, rfl, rfl, rfl, rfl⟩
  · intro s h1 h2
    simp [nutritionValue, jsAnd, toBoolean, strictNeStr, h1, h2]
  · intro n h1 h2 h3
    cases n with
    | fin q =>
      have hq : q ≠ 0 := fun e => h3 (by rw [e])
      simp [nutritionValue, jsAnd, toBoolean, strictNeStr, JsNum.truthy, hq]
    | nan => exact absurd rfl h1
    | negZero => exact absurd rfl h2
    | posInf => rfl
    | negInf => rfl

/-- C4, amended, at the value `250kcal`: it renders as `250kcal`. -/
theorem nutritionValue_verbatim_or_label_witness :
    nutritionValue keyTranslator (.str "250kcal") = .str "250kcal" :=
  (nutritionValue_verbatim_or_label keyTranslator).1 "250kcal" (by decide) (by decide)

/-- C5 at the nutrient key `constructor`: the lookup in `nutritionKeyMap` finds
the member inherited from `Object.prototype`, which is truthy, so the resolved
label key is that function and not `nutrition_constructor`. -/
theorem translationKey_inherited_name :
    ownProp nutritionKeyMap "constructor" = none ∧
    translationKey "constructor" = .builtin "constructor" ∧
    translationKey "constructor" ≠ .str ("nutrition_" ++ "constructor") := by
  have h : translationKey "constructor" = .builtin "constructor" := rfl
  refine ⟨rfl, h, ?_⟩
  rw [h]
  intro h2
  cases h2

/-- The label key of every nutrient key that is not a name inherited from
`Object.prototype`: the table entry for the eight table keys, `nutrition_`
followed by the key otherwise; each singular and plural spelling has its own
entry. -/
theorem translationKey_table_or_fallback :
    translationKey "energy" = .str "nutrition_energy" ∧
    translationKey "fat" = .str "nutrition_fat" ∧
    translationKey "carbohydrate" = .str "nutrition_carbohydrate" ∧
    translationKey "carbohydrates" = .str "nutrition_carbohydrates" ∧
    translationKey "sugar" = .str "nutrition_sugar" ∧
    translationKey "sugars" = .str "nutrition_sugars" ∧
    translationKey "protein" = .str "nutrition_protein" ∧
    translationKey "sodium" = .str "nutrition_sodium" ∧
    translationKey "carbohydrate" ≠ translationKey "carbohydrates" ∧
    translationKey "sugar" ≠ translationKey "sugars" ∧
    (∀ key : String, key ∉ nutritionKeyMap.map Prod.fst → key ∉ objectPrototypeKeys →
      translationKey key = .str ("nutrition_" ++ key)) := by
  refine ⟨rfl, rfl, rfl, rfl, rfl, rfl, rfl, rfl, ?_, ?_, ?_⟩
  · intro h
    have h2 : JsVal.str "nutrition_carbohydrate" = .str "nutrition_carbohydrates" := h
    injection h2 with h3
    exact absurd h3 (by decide)
  · intro h
    have h2 : JsVal.str "nutrition_sugar" = .str "nutrition_sugars" := h
    injection h2 with h3
    exact absurd h3 (by decide)
  · intro key hkey hproto
    have hown : ownProp nutritionKeyMap key = none :=
      ownProp_eq_none (fun p hp e => hkey (List.mem_map.mpr ⟨p, hp, e⟩))
    simp [translationKey, objGet, hown, hproto, jsOr, toBoolean]

/-! ## Upload lifecycle -/

/-- C6: in one upload lifecycle of `handleUpload`, progress is reset to `0`, and
for every finite run of length-computable ticks `(loaded_i, total)` with
`total > 0`, `loaded_i ≤ total` and `loaded_i` non-decreasing, each stored
value is the integer `round(loaded_i * 100 / total)`, lies in `[0, 100]`, and
the stored values, starting from the initial `0`, never decrease. -/
theorem upload_progress_monotone_bounded (tr : Translator) (apiUrl : String)
    (s0 : AppState) (file : JsFile) (total : Nat) (ticks : List ProgressEvent)
    (hfile : s0.file = some file) (htotal : 0 < total)
    (hticks : ∀ e ∈ ticks, e.lengthComputable = true ∧ e.total = total ∧ e.loaded ≤ total)
    (hmono : List.Chain' (fun a b : ProgressEvent => a.loaded ≤ b.loaded) ticks) :
    (handleUpload tr apiUrl false s0).state.progress = .fin 0 ∧
    ∃ ps : List ℤ,
      ps = ticks.map (fun e => ⌊((e.loaded * 100 : Nat) : ℚ) / (total : ℚ) + 1 / 2⌋) ∧
      progressTrace (handleUpload tr apiUrl false s0).state ticks =
        ps.map (fun p : ℤ => JsNum.fin (p : ℚ)) ∧
      (∀ p ∈ ps, 0 ≤ p ∧ p ≤ 100) ∧
      List.Chain' (fun a b : ℤ => a ≤ b) (0 :: ps) := by
  refine ⟨by simp [handleUpload, hfile], _, rfl, ?_, ?_, ?_⟩
  · exact progressTrace_eq _ total htotal ticks (fun e he => ⟨(hticks e he).1, (hticks e he).2.1⟩)
  · intro p hp
    obtain ⟨e, he, rfl⟩ := List.mem_map.mp hp
    exact ⟨percent_nonneg _ _, percent_le_hundred htotal (hticks e he).2.2⟩
  · rw [List.chain'_cons']
    refine ⟨?_, ?_⟩
    · intro p hp
      have hmem : p ∈ ticks.map
          (fun e => ⌊((e.loaded * 100 : Nat) : ℚ) / (total : ℚ) + 1 / 2⌋) :=
        List.mem_of_mem_head? hp
      obtain ⟨e, _, rfl⟩ := List.mem_map.mp hmem
      exact percent_nonneg _ _
    · rw [List.chain'_map]
      exact hmono.imp (fun {_ _} h => percent_mono h)

/-- C6 on the ticks `(1, 3)`, `(2, 3)`, `(3, 3)`: the stored values are `33`,
`67`, `100`. -/
theorem upload_progress_monotone_bounded_witness :
    ({ AppState.initial with file := some reportPdf } : AppState).file = some reportPdf ∧
    0 < 3 ∧
    List.Chain' (fun a b : ProgressEvent => a.loaded ≤ b.loaded)
      [⟨true, 1, 3⟩, ⟨true, 2, 3⟩, ⟨true, 3, 3⟩] ∧
    ((handleUpload keyTranslator defaultApiUrl false
      { AppState.initial with file := some reportPdf }).state.progress = .fin 0 ∧
    ∃ ps : List ℤ,
      ps = ([⟨true, 1, 3⟩, ⟨true, 2, 3⟩, ⟨true, 3, 3⟩] : List ProgressEvent).map
        (fun e => ⌊((e.loaded * 100 : Nat) : ℚ) / ((3 : Nat) : ℚ) + 1 / 2⌋) ∧
      progressTrace (handleUpload keyTranslator defaultApiUrl false
          { AppState.initial with file := some reportPdf }).state
          [⟨true, 1, 3⟩, ⟨true, 2, 3⟩, ⟨true, 3, 3⟩] =
        ps.map (fun p : ℤ => JsNum.fin (p : ℚ)) ∧
      (∀ p ∈ ps, 0 ≤ p ∧ p ≤ 100) ∧
      List.Chain' (fun a b : ℤ => a ≤ b) (0 :: ps)) ∧
    progressTrace (handleUpload keyTranslator defaultApiUrl false
        { AppState.initial with file := some reportPdf }).state
        [⟨true, 1, 3⟩, ⟨true, 2, 3⟩, ⟨true, 3, 3⟩] = [.fin 33, .fin 67, .fin 100] :=
  ⟨rfl, by decide, by simp,
    upload_progress_monotone_bounded keyTranslator defaultApiUrl
      { AppState.initial with file := some reportPdf } reportPdf 3
      [⟨true, 1, 3⟩, ⟨true, 2, 3⟩, ⟨true, 3, 3⟩] rfl (by decide)
      (by
        intro e he
        simp only [List.mem_cons, List.mem_singleton, List.mem_nil_iff, or_false] at he
        rcases he with rfl | rfl | rfl <;> exact ⟨rfl, rfl, by decide⟩)
      (by simp),
    by
      simp only [progressTrace, onprogress, if_true, mathRound_jsDivNat (by decide : 0 < 3)]
      norm_num [Int.floor_eq_iff]⟩

/-- C7, as stated, fails: a status 500 response whose body has the `detail`
field `""` leaves the generic `analysis failed` message as inline error, not
the detail. -/
theorem onload_empty_detail_gives_generic_message :
    ownProp [("detail", JsVal.str "")] "detail" = some (.str "") ∧
    (onload keyTranslator ⟨500, some (.obj [("detail", .str "")])⟩
      (uploadInFlight keyTranslator defaultApiUrl
        { AppState.initial with file := some reportPdf } [])).state.error =
      .str "analysis_failed" ∧
    (onload keyTranslator ⟨500, some (.obj [("detail", .str "")])⟩
      (uploadInFlight keyTranslator defaultApiUrl
        { AppState.initial with file := some reportPdf } [])).state.error ≠ .str "" := by
  have h : (onload keyTranslator ⟨500, some (.obj [("detail", .str "")])⟩
      (uploadInFlight keyTranslator defaultApiUrl
        { AppState.initial with file := some reportPdf } [])).state.error =
      .str "analysis_failed" := rfl
  refine ⟨rfl, h, ?_⟩
  rw [h]
  intro h2
  injection h2 with h3
  exact absurd h3 (by decide)

/-- C7, amended: for an upload started with a file that completes with a status
outside 200..299 and a JSON body other than `null`, after `onload` no exception
has escaped, the loading flag is false, the result is still `null` and the
result section is not rendered; the inline error is the body's `detail` when
that is truthy, and the generic `analysis failed` message when `detail` is
absent or falsy. -/
theorem onload_failure_status (tr : Translator) (apiUrl : String) (s0 : AppState)
    (file : JsFile) (ticks : List ProgressEvent) (status : Nat) (errData : JsVal)
    (hfile : s0.file = some file) (hstatus : ¬ (200 ≤ status ∧ status < 300))
    (hbody : isNullish errData = false) :
    (onload tr ⟨status, some errData⟩ (uploadInFlight tr apiUrl s0 ticks)).thrown = none ∧
    (onload tr ⟨status, some errData⟩ (uploadInFlight tr apiUrl s0 ticks)).state.loading
      = false ∧
    (onload tr ⟨status, some errData⟩ (uploadInFlight tr apiUrl s0 ticks)).state.result
      = .null ∧
    showsResult (onload tr ⟨status, some errData⟩ (uploadInFlight tr apiUrl s0 ticks)).state
      = false ∧
    (toBoolean (optChain errData "detail") = true →
      (onload tr ⟨status, some errData⟩ (uploadInFlight tr apiUrl s0 ticks)).state.error
        = optChain errData "detail") ∧
    (toBoolean (optChain errData "detail") = false →
      (onload tr ⟨status, some errData⟩ (uploadInFlight tr apiUrl s0 ticks)).state.error
        = .str (tr.t "analysis_failed")) := by
  obtain ⟨_, hres, _⟩ := uploadInFlight_fields tr apiUrl s0 file hfile ticks
  have hget : getProp errData "detail" = .ok (optChain errData "detail") := by
    cases errData <;> first | rfl | simp [isNullish] at hbody
  simp only [onload, hstatus, if_false, hget]
  refine ⟨trivial, trivial, hres, ?_, ?_, ?_⟩
  · simp [showsResult, hres, toBoolean]
  · intro h
    simp [jsOr, h]
  · intro h
    simp [jsOr, h]

/-- C7, amended, at status 500 with body `{detail: "corrupt file"}`: the inline
error is `corrupt file` and the result section is not rendered. -/
theorem onload_failure_status_witness :
    (onload keyTranslator ⟨500, some (.obj [("detail", .str "corrupt file")])⟩
      (uploadInFlight keyTranslator defaultApiUrl
        { AppState.initial with file := some reportPdf } [])).state.error =
      .str "corrupt file" ∧
    showsResult (onload keyTranslator ⟨500, some (.obj [("detail", .str "corrupt file")])⟩
      (uploadInFlight keyTranslator defaultApiUrl
        { AppState.initial with file := some reportPdf } [])).state = false :=
  have h := onload_failure_status keyTranslator defaultApiUrl
    { AppState.initial with file := some reportPdf } reportPdf [] 500
    (.obj [("detail", .str "corrupt file")]) rfl (by decide) rfl
  ⟨h.2.2.2.2.1 rfl, h.2.2.2.1⟩

/-- C8 on the code: when the body of a completed response is not valid JSON,
for every status, the `SyntaxError` of `JSON.parse` escapes `onload`; only the
loading flag has been cleared, the inline error is what it was (`null` for an
upload in flight) and no notification is raised. -/
theorem onload_invalid_json_escapes (tr : Translator) (apiUrl : String) (status : Nat)
    (s : AppState) (ticks : List ProgressEvent) :
    (onload tr ⟨status, none⟩ s).thrown = some .syntaxError ∧
    (onload tr ⟨status, none⟩ s).state = { s with loading := false } ∧
    (onload tr ⟨status, none⟩ s).effects = [] ∧
    (onload tr ⟨status, none⟩
      (uploadInFlight tr apiUrl { s with file := some reportPdf } ticks)).state.error = .null ∧
    showsError (onload tr ⟨status, none⟩
      (uploadInFlight tr apiUrl { s with file := some reportPdf } ticks)).state = false := by
  obtain ⟨_, _, herr⟩ :=
    uploadInFlight_fields tr apiUrl { s with file := some reportPdf } reportPdf rfl ticks
  by_cases hs : 200 ≤ status ∧ status < 300
  · simp [onload, hs, herr, showsError, toBoolean]
  · simp [onload, hs, herr, showsError, toBoolean]

/-! ## Export -/

/-- C9: with no prior successful result (`result` is `null`, or `result.data` is
`null` or absent) `handleDownloadPDF` does nothing: no request, no
notification, no download, state unchanged.  When `result.data` is an analysis
payload (an object) it issues exactly one request, a POST to the generate-pdf
endpoint whose JSON body is the payload's fields with `language` set to the
current language tag, and leaves the state unchanged. -/
theorem handleDownloadPDF_guard_and_request (tr : Translator) (apiUrl : String)
    (net : FetchOutcome) (s : AppState) :
    ((s.result = .null ∨ optChain s.result "data" = .null ∨
        optChain s.result "data" = .undefined) →
      handleDownloadPDF tr apiUrl net s = { state := s, effects := [], thrown := none }) ∧
    (∀ payload : JsObj, optChain s.result "data" = .obj payload →
      ∃ rest,
        (handleDownloadPDF tr apiUrl net s).effects =
          Effect.fetch "POST" (apiUrl ++ "/generate-pdf")
            [("Content-Type", "application/json")]
            (.obj (setProp payload "language" (.str s.language))) :: rest ∧
        (∀ e ∈ rest, e.isRequest = false) ∧
        (handleDownloadPDF tr apiUrl net s).state = s ∧
        (handleDownloadPDF tr apiUrl net s).thrown = none) := by
  refine ⟨?_, ?_⟩
  · intro h
    have hfalsy : toBoolean (optChain s.result "data") = false := by
      rcases h with h | h | h
      · rw [h]
        rfl
      · rw [h]
        rfl
      · rw [h]
        rfl
    simp [handleDownloadPDF, hfalsy]
  · intro payload hp
    have htruthy : toBoolean (optChain s.result "data") = true := by
      rw [hp]
      rfl
    cases net with
    | rejected =>
      exact ⟨_, by simp [handleDownloadPDF, htruthy, hp, objectSpread, objectEntries]; rfl,
        by simp [Effect.isRequest], by simp [handleDownloadPDF, htruthy],
        by simp [handleDownloadPDF, htruthy]⟩
    | response ok blob =>
      cases ok <;> cases blob <;>
      exact ⟨_, by simp [handleDownloadPDF, htruthy, hp, objectSpread, objectEntries]; rfl,
        by simp [Effect.isRequest], by simp [handleDownloadPDF, htruthy],
        by simp [handleDownloadPDF, htruthy]⟩

/-- C9 at the initial state (no result): clicking export does nothing; and after
a successful upload of `{milk: true}`, the request body is the payload with the
language tag `en` added. -/
theorem handleDownloadPDF_guard_and_request_witness :
    handleDownloadPDF keyTranslator defaultApiUrl (.response true (some [])) AppState.initial =
      { state := AppState.initial, effects := [], thrown := none } ∧
    ∃ rest,
      (handleDownloadPDF keyTranslator defaultApiUrl (.response true (some []))
        { AppState.initial with
          result := uploadResult "report" (.obj [("milk", .bool true)]) (.obj []) }).effects =
        Effect.fetch "POST" (defaultApiUrl ++ "/generate-pdf")
          [("Content-Type", "application/json")]
          (.obj [("allergens", .obj [("milk", .bool true)]),
                 ("nutritional_values", .obj []), ("language", .str "en")]) :: rest ∧
      (∀ e ∈ rest, e.isRequest = false) :=
  ⟨(handleDownloadPDF_guard_and_request keyTranslator defaultApiUrl (.response true (some []))
      AppState.initial).1 (Or.inl rfl),
    have h := (handleDownloadPDF_guard_and_request keyTranslator defaultApiUrl
      (.response true (some []))
      { AppState.initial with
        result := uploadResult "report" (.obj [("milk", .bool true)]) (.obj []) }).2
      [("allergens", .obj [("milk", .bool true)]), ("nutritional_values", .obj [])] rfl
    h.imp (fun _ hr => ⟨hr.1, hr.2.1⟩)⟩

end BeAware
